import Mathlib

/-!
Verification of the Catch2 part-tracker state machine
(src/projects/SelfTest/PartTrackerTests.cpp).

The C++ tracker tree is embedded as a flat arena of nodes (`TrackerSys.nodes`);
a node's identity is its position in the arena, mirroring pointer identity.
Virtual dispatch between `SectionTracker` and `IndexTracker` is a `match` on
`Tracker.kind`.  Fallible operations (assertion failures, `logic_error`
throws, null-pointer dereference) return `none`.  The unbounded loops in the
source (`close` drain loop, `openChild` parent recursion) are given explicit
fuel; theorems either show the fuel is irrelevant or existentially quantify
over it where termination itself is the claim.
-/

namespace PartTracker

/-- Run states of a tracker, from `PartTrackerBase::RunState`. -/
inductive TrackerRunState
  | NotStarted
  | Executing
  | ExecutingChildren
  | NeedsAnotherRun
  | CompletedSuccessfully
  | Failed
deriving DecidableEq

/-- Run states of the context, from `TrackerContext::RunState`. -/
inductive CtxRunState
  | NotStarted
  | Executing
  | CompletedCycle
deriving DecidableEq

/-- The concrete class of a tracker: `SectionTracker`, or `IndexTracker`
with its `m_size` and `m_index` fields. -/
inductive TrackerKind
  | sec
  | gen (size : Int) (index : Int)
deriving DecidableEq

/-- One tracker node: fields of `PartTrackerBase` (plus the
`IndexTracker`-only fields inside `kind`).  `parent` and `children` are
arena indices. -/
structure Tracker where
  name : String
  parent : Option Nat
  kind : TrackerKind
  children : List Nat
  runState : TrackerRunState
deriving DecidableEq

/-- The whole system: the tracker arena plus the fields of
`TrackerContext`. -/
structure TrackerSys where
  nodes : List Tracker
  rootPart : Option Nat
  currentPart : Option Nat
  runState : CtxRunState
deriving DecidableEq

/-- `PartTrackerBase::hasEnded`. -/
def Tracker.hasEnded (t : Tracker) : Bool :=
  match t.runState with
  | .CompletedSuccessfully => true
  | .Failed => true
  | _ => false

/-- `PartTrackerBase::hasStarted`. -/
def Tracker.hasStarted (t : Tracker) : Bool :=
  match t.runState with
  | .NotStarted => false
  | _ => true

/-- `PartTrackerBase::isOpen`. -/
def Tracker.isOpen (t : Tracker) : Bool :=
  t.hasStarted && !t.hasEnded

/-- `PartTrackerBase::isSuccessfullyCompleted`. -/
def Tracker.isSuccessfullyCompleted (t : Tracker) : Bool :=
  match t.runState with
  | .CompletedSuccessfully => true
  | _ => false

/-- State of the node at arena index `i`. -/
def stateAt (s : TrackerSys) (i : Nat) : Option TrackerRunState :=
  match s.nodes[i]? with
  | some t => some t.runState
  | none => none

/-- `isOpen` of the node at arena index `i` (false if absent). -/
def isOpenAt (s : TrackerSys) (i : Nat) : Bool :=
  match s.nodes[i]? with
  | some t => t.isOpen
  | none => false

/-- `hasEnded` of the node at arena index `i` (false if absent). -/
def hasEndedAt (s : TrackerSys) (i : Nat) : Bool :=
  match s.nodes[i]? with
  | some t => t.hasEnded
  | none => false

/-- Recorded `m_size` of the `IndexTracker` at arena index `i`. -/
def sizeAt (s : TrackerSys) (i : Nat) : Option Int :=
  match s.nodes[i]? with
  | some t =>
    match t.kind with
    | .gen sz _ => some sz
    | .sec => none
  | none => none

/-- Recorded `m_index` of the `IndexTracker` at arena index `i`. -/
def indexAt (s : TrackerSys) (i : Nat) : Option Int :=
  match s.nodes[i]? with
  | some t =>
    match t.kind with
    | .gen _ ix => some ix
    | .sec => none
  | none => none

/-- `m_parent` of the node at arena index `i`. -/
def parentOf (s : TrackerSys) (i : Nat) : Option Nat :=
  match s.nodes[i]? with
  | some t => t.parent
  | none => none

/-- A freshly constructed `TrackerContext`: no root, null current,
`NotStarted`. -/
def initSys : TrackerSys := ⟨[], none, none, .NotStarted⟩

/-- `TrackerContext::startRun`: unconditionally install a fresh root
`SectionTracker` named `{root}`, null out the current pointer and set the
run state to `Executing`.  The new root's arena index is the old arena
length. -/
def startRun (s : TrackerSys) : TrackerSys :=
  { nodes := s.nodes ++ [⟨"{root}", none, .sec, [], .NotStarted⟩],
    rootPart := some s.nodes.length,
    currentPart := none,
    runState := .Executing }

/-- `TrackerContext::endRun`. -/
def endRun (s : TrackerSys) : TrackerSys :=
  { s with rootPart := none, currentPart := none, runState := .NotStarted }

/-- `TrackerContext::startCycle`. -/
def startCycle (s : TrackerSys) : TrackerSys :=
  { s with currentPart := s.rootPart, runState := .Executing }

/-- `TrackerContext::completedCycle`. -/
def completedCycle (s : TrackerSys) : Bool :=
  match s.runState with
  | .CompletedCycle => true
  | _ => false

/-- The predicate `TrackerHasName` applied to a child arena index. -/
def childNamed (s : TrackerSys) (nm : String) (c : Nat) : Bool :=
  match s.nodes[c]? with
  | some t => t.name == nm
  | none => false

/-- `PartTrackerBase::findChild`: first child of node `i` whose name is
`nm`. -/
def findChild (s : TrackerSys) (i : Nat) (nm : String) : Option Nat :=
  match s.nodes[i]? with
  | none => none
  | some t => t.children.find? (childNamed s nm)

/-- `PartTrackerBase::openChild`, recursing up the parent chain with
explicit fuel. -/
def openChildAux : Nat → TrackerSys → Nat → Option TrackerSys
  | 0, _, _ => none
  | fuel + 1, s, i =>
    match s.nodes[i]? with
    | none => none
    | some t =>
      if t.runState = .ExecutingChildren then some s
      else
        let s' : TrackerSys :=
          { s with nodes := s.nodes.set i { t with runState := .ExecutingChildren } }
        match t.parent with
        | none => some s'
        | some p => openChildAux fuel s' p

/-- `PartTrackerBase::open`: set this node `Executing`, make it the current
tracker, then `openChild` on the parent chain. -/
def openTracker (s : TrackerSys) (i : Nat) : Option TrackerSys :=
  match s.nodes[i]? with
  | none => none
  | some t =>
    let s1 : TrackerSys :=
      { s with nodes := s.nodes.set i { t with runState := .Executing },
               currentPart := some i }
    match t.parent with
    | none => some s1
    | some p => openChildAux (s1.nodes.length + 1) s1 p

/-- `SectionTracker::acquire`.  Returns the updated system and the arena
index of the returned tracker.  A failed `dynamic_cast` assertion (name
clash with an `IndexTracker`) is `none`. -/
def acquireSection (s : TrackerSys) (nm : String) : Option (TrackerSys × Nat) :=
  match s.currentPart with
  | none => none
  | some cur =>
    match s.nodes[cur]? with
    | none => none
    | some tcur =>
      match findChild s cur nm with
      | some cid =>
        match s.nodes[cid]? with
        | none => none
        | some tc =>
          match tc.kind with
          | .gen _ _ => none
          | .sec =>
            if !completedCycle s && !tc.hasEnded then
              match openTracker s cid with
              | none => none
              | some s' => some (s', cid)
            else some (s, cid)
      | none =>
        let cid := s.nodes.length
        let child : Tracker := ⟨nm, some cur, .sec, [], .NotStarted⟩
        let s2 : TrackerSys :=
          { s with nodes :=
              (s.nodes ++ [child]).set cur { tcur with children := tcur.children ++ [cid] } }
        if !completedCycle s2 && !child.hasEnded then
          match openTracker s2 cid with
          | none => none
          | some s' => some (s', cid)
        else some (s2, cid)

/-- `IndexTracker::moveNext`: increment `m_index`, clear `m_children`. -/
def moveNext (s : TrackerSys) (i : Nat) : Option TrackerSys :=
  match s.nodes[i]? with
  | none => none
  | some t =>
    match t.kind with
    | .gen sz ix =>
      some { s with nodes := s.nodes.set i { t with kind := .gen sz (ix + 1), children := [] } }
    | .sec => none

/-- `IndexTracker::acquire`.  Note that when an existing child is found the
`size` argument is never consulted. -/
def acquireIndex (s : TrackerSys) (nm : String) (size : Int) : Option (TrackerSys × Nat) :=
  match s.currentPart with
  | none => none
  | some cur =>
    match s.nodes[cur]? with
    | none => none
    | some tcur =>
      match findChild s cur nm with
      | some cid =>
        match s.nodes[cid]? with
        | none => none
        | some tc =>
          match tc.kind with
          | .sec => none
          | .gen _ _ =>
            if !completedCycle s && !tc.hasEnded then
              match (if tc.runState = .ExecutingChildren then some s else moveNext s cid) with
              | none => none
              | some sm =>
                match openTracker sm cid with
                | none => none
                | some s' => some (s', cid)
            else some (s, cid)
      | none =>
        let cid := s.nodes.length
        let child : Tracker := ⟨nm, some cur, .gen size (-1), [], .NotStarted⟩
        let s2 : TrackerSys :=
          { s with nodes :=
              (s.nodes ++ [child]).set cur { tcur with children := tcur.children ++ [cid] } }
        if !completedCycle s2 && !child.hasEnded then
          match (if child.runState = .ExecutingChildren then some s2 else moveNext s2 cid) with
          | none => none
          | some sm =>
            match openTracker sm cid with
            | none => none
            | some s' => some (s', cid)
        else some (s2, cid)

/-- `PartTrackerBase::moveToParent` followed by `ctx.completeCycle()`: the
tail of every non-early-return path of `close`.  The `assert( m_parent )`
failing is `none`. -/
def moveAndSignal (s : TrackerSys) (i : Nat) : Option TrackerSys :=
  match s.nodes[i]? with
  | none => none
  | some t =>
    match t.parent with
    | none => none
    | some p => some { s with currentPart := some p, runState := .CompletedCycle }

/-- The `switch( m_runState )` of `PartTrackerBase::close` together with the
trailing `moveToParent(); m_ctx.completeCycle()`.  The `CompletedSuccessfully`
and `Failed` cases return early with no change; `NotStarted` (the `default`
label) throws `logic_error`, modelled as `none`. -/
def baseResolve (s : TrackerSys) (i : Nat) : Option TrackerSys :=
  match s.nodes[i]? with
  | none => none
  | some t =>
    match t.runState with
    | .CompletedSuccessfully => some s
    | .Failed => some s
    | .Executing =>
      moveAndSignal { s with nodes := s.nodes.set i { t with runState := .CompletedSuccessfully } } i
    | .ExecutingChildren =>
      match t.children.getLast? with
      | none =>
        moveAndSignal { s with nodes := s.nodes.set i { t with runState := .CompletedSuccessfully } } i
      | some lc =>
        match s.nodes[lc]? with
        | none => none
        | some tl =>
          if tl.hasEnded then
            moveAndSignal { s with nodes := s.nodes.set i { t with runState := .CompletedSuccessfully } } i
          else moveAndSignal s i
    | .NeedsAnotherRun =>
      moveAndSignal { s with nodes := s.nodes.set i { t with runState := .Executing } } i
    | .NotStarted => none

/-- The trailer of `IndexTracker::close`: after the base `close`, if the
state is `CompletedSuccessfully` and `m_index < m_size - 1`, drop back to
`Executing`. -/
def idxPostClose (s : TrackerSys) (i : Nat) : Option TrackerSys :=
  match s.nodes[i]? with
  | none => none
  | some t =>
    match t.kind with
    | .sec => some s
    | .gen sz ix =>
      if t.runState = .CompletedSuccessfully ∧ ix < sz - 1 then
        some { s with nodes := s.nodes.set i { t with runState := .Executing } }
      else some s

/-- The post-drain body of the virtual `close()` of the node at `i`:
`baseResolve` for a `SectionTracker`, `baseResolve` then `idxPostClose` for
an `IndexTracker`. -/
def closeResolve (s : TrackerSys) (i : Nat) : Option TrackerSys :=
  match s.nodes[i]? with
  | none => none
  | some t =>
    match t.kind with
    | .sec => baseResolve s i
    | .gen _ _ =>
      match baseResolve s i with
      | none => none
      | some s' => idxPostClose s' i

mutual

/-- The drain loop of `PartTrackerBase::close`:
`while( &m_ctx.currentPart() != this ) m_ctx.currentPart().close();`.
Fuel exhaustion (the loop not terminating within `fuel` steps) is `none`,
as is a null current pointer. -/
def drainAux : Nat → TrackerSys → Nat → Option TrackerSys
  | 0, _, _ => none
  | fuel + 1, s, i =>
    match s.currentPart with
    | none => none
    | some c =>
      if c = i then some s
      else
        match closeAux fuel s c with
        | none => none
        | some s' => drainAux fuel s' i

/-- The full virtual `close()` on the node at `i`: drain descendants, then
resolve this node. -/
def closeAux : Nat → TrackerSys → Nat → Option TrackerSys
  | 0, _, _ => none
  | fuel + 1, s, i =>
    match drainAux fuel s i with
    | none => none
    | some s' => closeResolve s' i

end

/-- `close()` with enough fuel for any drain chain that fits in the
arena. -/
def close (s : TrackerSys) (i : Nat) : Option TrackerSys :=
  closeAux (2 * s.nodes.length + 2) s i

/-- `PartTrackerBase::close` on the node at `i` (the non-virtual base
body): drain, then the base switch, without any `IndexTracker`
trailer. -/
def basePartClose (s : TrackerSys) (i : Nat) : Option TrackerSys :=
  match drainAux (2 * s.nodes.length + 2) s i with
  | none => none
  | some s' => baseResolve s' i

/-- `PartTrackerBase::fail`: set `Failed`, flag the parent
`NeedsAnotherRun` if present, then `moveToParent()` (whose assertion fails
for the root) and `completeCycle()`. -/
def failTracker (s : TrackerSys) (i : Nat) : Option TrackerSys :=
  match s.nodes[i]? with
  | none => none
  | some t =>
    let s1 : TrackerSys := { s with nodes := s.nodes.set i { t with runState := .Failed } }
    match t.parent with
    | none => none
    | some p =>
      match s1.nodes[p]? with
      | none => none
      | some tp =>
        some { s1 with
                 nodes := s1.nodes.set p { tp with runState := .NeedsAnotherRun },
                 currentPart := some p,
                 runState := .CompletedCycle }

/-- One driver cycle for a test body consisting of a single generator `G`
of size `n` directly under the root: `startCycle`, acquire the generator,
and close it if (and only if) the acquire left it open, exactly as the
host driver loop in the spec prescribes. -/
def genCycle (n : Int) (s : TrackerSys) : Option TrackerSys :=
  (acquireIndex (startCycle s) "G" n).bind fun p =>
    if isOpenAt p.1 p.2 then close p.1 p.2 else some p.1

/-- `k` driver cycles of the single-generator body, starting from a fresh
run. -/
def genIter (n : Int) : Nat → Option TrackerSys
  | 0 => some (startRun initSys)
  | k + 1 => (genIter n k).bind (genCycle n)

/-- The system shape reached by the single-generator body between cycles:
the root (arena index 0) executing its children, and the generator (arena
index 1) with recorded size `n`, current index `i`, tracker state `st`;
the context's current tracker is the root and its run state is `c`. -/
def gRun (n i : Int) (st : TrackerRunState) (c : CtxRunState) : TrackerSys :=
  ⟨[⟨"{root}", none, .sec, [1], .ExecutingChildren⟩,
    ⟨"G", some 0, .gen n i, [], st⟩], some 0, some 0, c⟩

/-- A three-level tree (root, a test case, a section) with the section
open and current: the state reached by `startRun`, `startCycle` and two
nested section acquires. -/
def wSys : TrackerSys :=
  ⟨[⟨"{root}", none, .sec, [1], .ExecutingChildren⟩,
    ⟨"Testcase", some 0, .sec, [2], .ExecutingChildren⟩,
    ⟨"S1", some 1, .sec, [], .Executing⟩], some 0, some 2, .Executing⟩

/-- `wSys` after a successful `close()` of the section at index 2. -/
def wSysClosed : TrackerSys :=
  ⟨[⟨"{root}", none, .sec, [1], .ExecutingChildren⟩,
    ⟨"Testcase", some 0, .sec, [2], .ExecutingChildren⟩,
    ⟨"S1", some 1, .sec, [], .CompletedSuccessfully⟩], some 0, some 1, .CompletedCycle⟩

/-- An `IndexTracker` (arena index 1) resting in `CompletedSuccessfully`
with `index = 0` and `size = 2`, as the context's current tracker. -/
def c6sys : TrackerSys :=
  ⟨[⟨"{root}", none, .sec, [1], .ExecutingChildren⟩,
    ⟨"G", some 0, .gen 2 0, [], .CompletedSuccessfully⟩], some 0, some 1, .Executing⟩

/-- `c6sys` with the generator knocked back to `Executing`. -/
def c6out : TrackerSys :=
  ⟨[⟨"{root}", none, .sec, [1], .ExecutingChildren⟩,
    ⟨"G", some 0, .gen 2 0, [], .Executing⟩], some 0, some 1, .Executing⟩

/-- An existing `IndexTracker` named `G` with recorded size 2 and index 0,
open and executing, with the root current: the state in which a second
cycle would re-acquire `G`. -/
def c7sys : TrackerSys :=
  ⟨[⟨"{root}", none, .sec, [1], .ExecutingChildren⟩,
    ⟨"G", some 0, .gen 2 0, [], .Executing⟩], some 0, some 0, .Executing⟩

/-- `c7sys` after re-acquiring `G`: the index advanced and the tracker
reopened; the recorded size is still 2 whatever size was passed. -/
def c7out : TrackerSys :=
  ⟨[⟨"{root}", none, .sec, [1], .ExecutingChildren⟩,
    ⟨"G", some 0, .gen 2 1, [], .Executing⟩], some 0, some 1, .Executing⟩

/-- The state produced by a full driver prefix: `startRun`, `startCycle`,
acquire `Testcase`, acquire `S1`, then `close()` on `S1` (arena index 2) —
a tracker two levels below the root. -/
def c5state : Option TrackerSys :=
  ((acquireSection (startCycle (startRun initSys)) "Testcase").bind fun p =>
    acquireSection p.1 "S1").bind fun p => close p.1 p.2

/-- `wSysClosed` after acquiring a new sibling section `S2` while the
cycle is already complete: the node is created and attached but stays
`NotStarted` and nothing is opened. -/
def c3wOut : TrackerSys :=
  ⟨[⟨"{root}", none, .sec, [1], .ExecutingChildren⟩,
    ⟨"Testcase", some 0, .sec, [2, 3], .ExecutingChildren⟩,
    ⟨"S1", some 1, .sec, [], .CompletedSuccessfully⟩,
    ⟨"S2", some 1, .sec, [], .NotStarted⟩], some 0, some 1, .CompletedCycle⟩

/-- A node of the tracker tree that an inner `close()` of the drain loop
can fully process: it exists, its state is one of the three that reach
`moveToParent`, it has a parent, and (for the `ExecutingChildren` case)
its last child is dereferenceable. -/
def Closable (s : TrackerSys) (c : Nat) : Prop :=
  ∃ t, s.nodes[c]? = some t ∧
    (t.runState = .Executing ∨ t.runState = .ExecutingChildren ∨ t.runState = .NeedsAnotherRun) ∧
    (∃ pp, t.parent = some pp) ∧
    (∀ lc, t.children.getLast? = some lc → (s.nodes[lc]?).isSome = true)

/-- The parent chain from `c` up to `i` (exclusive), every node on it
closable and no node repeated: the shape the context's current pointer has
in any reachable state in which `close()` is invoked on an ancestor `i` of
the current tracker. -/
inductive UpChain (s : TrackerSys) (i : Nat) : Nat → List Nat → Prop
  | nil : UpChain s i i []
  | cons {c p : Nat} {l : List Nat} (hne : c ≠ i) (hcl : Closable s c)
      (hp : parentOf s c = some p) (hnotin : c ∉ l) (htail : UpChain s i p l) :
      UpChain s i c (c :: l)

/-- A three-deep open chain (root, section `A`, section `B`) with `B`
current: closing the root must drain `B` then `A`. -/
def c9sys : TrackerSys :=
  ⟨[⟨"{root}", none, .sec, [1], .ExecutingChildren⟩,
    ⟨"A", some 0, .sec, [2], .ExecutingChildren⟩,
    ⟨"B", some 1, .sec, [], .Executing⟩], some 0, some 2, .Executing⟩

/-- A lone root tracker, open and current, as after `startRun`/`startCycle`
once a child has opened and closed again: the shape on which closing or
failing the root itself would run. -/
def c10sys : TrackerSys :=
  ⟨[⟨"{root}", none, .sec, [], .ExecutingChildren⟩], some 0, some 0, .Executing⟩

theorem getElem_some_lt {l : List Tracker} {i : Nat} {t : Tracker}
    (h : l[i]? = some t) : i < l.length := by
  by_contra hn
  rw [List.getElem?_eq_none (Nat.le_of_not_lt hn)] at h
  exact Option.noConfusion h

theorem drain_triv {s : TrackerSys} {i : Nat} (f : Nat)
    (hcur : s.currentPart = some i) : drainAux (f + 1) s i = some s := by
  simp [drainAux, hcur]

theorem close_of_current {s : TrackerSys} {i : Nat}
    (hcur : s.currentPart = some i) : close s i = closeResolve s i := by
  show closeAux (2 * s.nodes.length + 1 + 1) s i = closeResolve s i
  rw [closeAux, drain_triv _ hcur]

theorem basePartClose_of_current {s : TrackerSys} {i : Nat}
    (hcur : s.currentPart = some i) : basePartClose s i = baseResolve s i := by
  show (match drainAux (2 * s.nodes.length + 1 + 1) s i with
        | none => none
        | some s' => baseResolve s' i) = baseResolve s i
  rw [drain_triv _ hcur]

-- C2 step lemma (b): a running cycle advances the index
/-- Claim C1: once the descendant-drain loop has finished (the context's
current tracker is the tracker being closed) and the tracker has a parent,
`PartTrackerBase::close` resolves the tracker's own state as claimed: from
`Executing` to `CompletedSuccessfully`; from `ExecutingChildren` to
`CompletedSuccessfully` when the children list is empty or its last child
has ended, otherwise staying `ExecutingChildren`; from `NeedsAnotherRun`
back to `Executing` — and in each of the three cases the context's current
tracker becomes this tracker's parent and the cycle is marked complete. -/
theorem c1_close_resolution (s : TrackerSys) (i p : Nat) (t : Tracker)
    (hcur : s.currentPart = some i)
    (ht : s.nodes[i]? = some t)
    (hp : t.parent = some p) :
    (t.runState = .Executing →
      basePartClose s i =
        some { s with nodes := s.nodes.set i { t with runState := .CompletedSuccessfully },
                      currentPart := some p, runState := .CompletedCycle })
    ∧ (t.runState = .ExecutingChildren →
        (t.children.getLast? = none →
          basePartClose s i =
            some { s with nodes := s.nodes.set i { t with runState := .CompletedSuccessfully },
                          currentPart := some p, runState := .CompletedCycle })
        ∧ (∀ lc tl, t.children.getLast? = some lc → s.nodes[lc]? = some tl →
            (tl.hasEnded = true →
              basePartClose s i =
                some { s with nodes := s.nodes.set i { t with runState := .CompletedSuccessfully },
                              currentPart := some p, runState := .CompletedCycle })
            ∧ (tl.hasEnded = false →
              basePartClose s i =
                some { s with currentPart := some p, runState := .CompletedCycle })))
    ∧ (t.runState = .NeedsAnotherRun →
      basePartClose s i =
        some { s with nodes := s.nodes.set i { t with runState := .Executing },
                      currentPart := some p, runState := .CompletedCycle }) := by
  have hlt : i < s.nodes.length := getElem_some_lt ht
  rw [basePartClose_of_current hcur]
  refine ⟨?_, ?_, ?_⟩
  · intro hst
    simp [baseResolve, ht, hst, moveAndSignal, List.getElem?_set_eq_of_lt _ hlt, hp]
  · intro hst
    constructor
    · intro hl
      simp [baseResolve, ht, hst, hl, moveAndSignal, List.getElem?_set_eq_of_lt _ hlt, hp]
    · intro lc tl hl htl
      constructor
      · intro he
        simp [baseResolve, ht, hst, hl, htl, he, moveAndSignal,
              List.getElem?_set_eq_of_lt _ hlt, hp]
      · intro he
        simp [baseResolve, ht, hst, hl, htl, he, moveAndSignal, hp]
  · intro hst
    simp [baseResolve, ht, hst, moveAndSignal, List.getElem?_set_eq_of_lt _ hlt, hp]

theorem gen_cycle_running (n i : Int) (c : CtxRunState) :
    genCycle n (gRun n i .Executing c) =
      some (gRun n (i + 1)
        (if i + 1 < n - 1 then .Executing else .CompletedSuccessfully) .CompletedCycle) := by
  have h1 : acquireIndex (startCycle (gRun n i .Executing c)) "G" n =
      some (⟨[⟨"{root}", none, .sec, [1], .ExecutingChildren⟩,
              ⟨"G", some 0, .gen n (i + 1), [], .Executing⟩], some 0, some 1, .Executing⟩, 1) := by
    simp [startCycle, gRun, acquireIndex, findChild, childNamed, completedCycle,
          Tracker.hasEnded, moveNext, openTracker, openChildAux]
  rw [genCycle, h1]
  have h2 : close (⟨[⟨"{root}", none, .sec, [1], .ExecutingChildren⟩,
              ⟨"G", some 0, .gen n (i + 1), [], .Executing⟩], some 0, some 1, .Executing⟩ : TrackerSys) 1 =
      some (gRun n (i + 1)
        (if i + 1 < n - 1 then .Executing else .CompletedSuccessfully) .CompletedCycle) := by
    rw [close_of_current rfl]
    by_cases hlt : i + 1 < n - 1 <;>
      simp [closeResolve, baseResolve, moveAndSignal, idxPostClose, gRun, hlt]
  simp [isOpenAt, Tracker.isOpen, Tracker.hasStarted, Tracker.hasEnded, h2]

-- C2 lemma (a): the first cycle creates the generator and yields index 0
theorem gen_cycle_first (n : Int) :
    genCycle n (startRun initSys) =
      some (gRun n 0
        (if (0:Int) < n - 1 then .Executing else .CompletedSuccessfully) .CompletedCycle) := by
  have h1 : acquireIndex (startCycle (startRun initSys)) "G" n =
      some (⟨[⟨"{root}", none, .sec, [1], .ExecutingChildren⟩,
              ⟨"G", some 0, .gen n 0, [], .Executing⟩], some 0, some 1, .Executing⟩, 1) := by
    simp [startCycle, startRun, initSys, acquireIndex, findChild, childNamed, completedCycle,
          Tracker.hasEnded, moveNext, openTracker, openChildAux]
  rw [genCycle, h1]
  have h2 : close (⟨[⟨"{root}", none, .sec, [1], .ExecutingChildren⟩,
              ⟨"G", some 0, .gen n 0, [], .Executing⟩], some 0, some 1, .Executing⟩ : TrackerSys) 1 =
      some (gRun n 0
        (if (0:Int) < n - 1 then .Executing else .CompletedSuccessfully) .CompletedCycle) := by
    rw [close_of_current rfl]
    by_cases hlt : (0:Int) < n - 1 <;>
      simp [closeResolve, baseResolve, moveAndSignal, idxPostClose, gRun, hlt]
  simp [isOpenAt, Tracker.isOpen, Tracker.hasStarted, Tracker.hasEnded, h2]

-- C2 lemma (c): once the generator has ended, a cycle changes nothing about it
theorem gen_cycle_ended (n i : Int) (c : CtxRunState) :
    genCycle n (gRun n i .CompletedSuccessfully c) =
      some (gRun n i .CompletedSuccessfully .Executing) := by
  have h1 : acquireIndex (startCycle (gRun n i .CompletedSuccessfully c)) "G" n =
      some (gRun n i .CompletedSuccessfully .Executing, 1) := by
    simp [startCycle, gRun, acquireIndex, findChild, childNamed, completedCycle,
          Tracker.hasEnded]
  rw [genCycle, h1]
  simp [isOpenAt, Tracker.isOpen, Tracker.hasStarted, Tracker.hasEnded, gRun]

/-- Claim C2: for an `IndexTracker` of size `n ≥ 1` acquired once per
cycle, after the `k`-th cycle (1 ≤ k ≤ n) its index is `k - 1` — so the
index takes the values 0, 1, …, n−1 in increasing order, each exactly
once — and its state is `Executing` while `k < n` (a close that leaves
`index < n − 1` re-arms the tracker) and `CompletedSuccessfully` exactly
from the cycle with `index = n − 1` on, permanently. -/
theorem c2_generator_fairness (n : Int) (k : Nat) (hn : 1 ≤ n) (hk : 1 ≤ k) :
    ((k:Int) ≤ n → genIter n k =
       some (gRun n ((k:Int) - 1)
         (if (k:Int) = n then .CompletedSuccessfully else .Executing) .CompletedCycle))
    ∧ (n < (k:Int) → genIter n k =
       some (gRun n (n - 1) .CompletedSuccessfully .Executing)) := by
  induction k with
  | zero => omega
  | succ k ih =>
    have hstep : genIter n (k + 1) = (genIter n k).bind (genCycle n) := rfl
    by_cases hk0 : k = 0
    · subst hk0
      refine ⟨?_, ?_⟩
      · intro hkn
        have h1 : genIter n 1 = genCycle n (startRun initSys) := by
          show genIter n (0 + 1) = _
          rw [genIter, genIter, Option.some_bind]
        rw [h1, gen_cycle_first]
        by_cases h1n : ((1:Nat):Int) = n
        · have hz : ¬ ((0:Int) < n - 1) := by omega
          rw [if_neg hz, if_pos h1n]
          norm_num
        · have hz : (0:Int) < n - 1 := by push_cast at h1n ⊢; omega
          rw [if_pos hz, if_neg h1n]
          norm_num
      · intro hlt
        push_cast at hlt
        omega
    · have hk1 : 1 ≤ k := Nat.one_le_iff_ne_zero.mpr hk0
      obtain ⟨ihle, ihgt⟩ := ih hk1
      refine ⟨?_, ?_⟩
      · intro hkn
        have hklt : (k:Int) < n := by push_cast at hkn; omega
        have e1 := ihle (le_of_lt hklt)
        rw [if_neg (by omega : ¬ ((k:Int) = n))] at e1
        rw [hstep, e1, Option.some_bind, gen_cycle_running]
        have harg : (k:Int) - 1 + 1 = ((k+1 : Nat):Int) - 1 := by push_cast; ring
        rw [harg]
        by_cases heq : ((k+1 : Nat):Int) = n
        · rw [if_neg (by push_cast at heq ⊢; omega : ¬ (((k+1 : Nat):Int) - 1 < n - 1)),
              if_pos heq]
        · rw [if_pos (by push_cast at heq hkn ⊢; omega : ((k+1 : Nat):Int) - 1 < n - 1),
              if_neg heq]
      · intro hlt
        by_cases hkeq : (k:Int) = n
        · have e1 := ihle (le_of_eq hkeq)
          rw [if_pos hkeq] at e1
          rw [hstep, e1, Option.some_bind]
          have harg : (k:Int) - 1 = n - 1 := by omega
          rw [harg, gen_cycle_ended]
        · have hnk : n < (k:Int) := by push_cast at hlt; omega
          have e2 := ihgt hnk
          rw [hstep, e2, Option.some_bind, gen_cycle_ended]

theorem completedCycle_set_nodes (s : TrackerSys) (x : List Tracker) :
    completedCycle { s with nodes := x } = completedCycle s := rfl

/-- Claim C3: when `SectionTracker::acquire` runs after the cycle has been
marked completed it opens nothing: the current pointer and the context run
state are untouched and the returned node keeps its previous state (a node
not seen before is created `NotStarted` and is not open); and a node whose
`hasEnded()` is already true is returned with no change at all, so
`isOpen()` is false. -/
theorem c3_acquire_after_completed_cycle (s : TrackerSys) (nm : String) (s' : TrackerSys) (cid : Nat)
    (hacq : acquireSection s nm = some (s', cid)) :
    (completedCycle s = true →
      s'.currentPart = s.currentPart ∧ s'.runState = s.runState ∧
      stateAt s' cid = some ((stateAt s cid).getD .NotStarted) ∧
      (stateAt s cid = none → isOpenAt s' cid = false))
    ∧ (hasEndedAt s cid = true → s' = s ∧ isOpenAt s' cid = false) := by
  unfold acquireSection at hacq
  split at hacq
  case _ => exact Option.noConfusion hacq
  case _ cur hcur =>
  split at hacq
  case _ => exact Option.noConfusion hacq
  case _ tcur htcur =>
  split at hacq
  case _ fid hfc =>
    split at hacq
    case _ => exact Option.noConfusion hacq
    case _ tc hfn =>
    split at hacq
    case _ => exact Option.noConfusion hacq
    case _ hk =>
    split at hacq
    case isTrue hcond =>
      split at hacq
      case _ => exact Option.noConfusion hacq
      case _ s0 hot =>
      rw [Option.some.injEq, Prod.mk.injEq] at hacq
      obtain ⟨h1, h2⟩ := hacq
      subst h1
      subst h2
      simp only [Bool.and_eq_true, Bool.not_eq_true'] at hcond
      refine ⟨?_, ?_⟩
      · intro hcc
        rw [hcc] at hcond
        exact Bool.noConfusion hcond.1
      · intro hend
        simp only [hasEndedAt, hfn] at hend
        rw [hend] at hcond
        exact Bool.noConfusion hcond.2
    case isFalse hcond =>
      rw [Option.some.injEq, Prod.mk.injEq] at hacq
      obtain ⟨h1, h2⟩ := hacq
      subst h1
      subst h2
      refine ⟨?_, ?_⟩
      · intro _
        refine ⟨rfl, rfl, ?_, ?_⟩
        · simp only [stateAt, hfn, Option.getD_some]
        · intro hnone
          simp only [stateAt, hfn] at hnone
          exact Option.noConfusion hnone
      · intro hend
        simp only [hasEndedAt, hfn] at hend
        refine ⟨rfl, ?_⟩
        simp only [isOpenAt, hfn, Tracker.isOpen, hend, Bool.not_true, Bool.and_false]
  case _ hfc =>
    simp only [Tracker.hasEnded, completedCycle_set_nodes, Bool.not_false, Bool.and_true] at hacq
    have hlen : s.nodes[s.nodes.length]? = none := List.getElem?_eq_none (Nat.le_refl _)
    have hcurlt : cur < s.nodes.length := getElem_some_lt htcur
    split at hacq
    case isTrue hcond =>
      split at hacq
      case _ => exact Option.noConfusion hacq
      case _ s0 hot =>
      rw [Option.some.injEq, Prod.mk.injEq] at hacq
      obtain ⟨h1, h2⟩ := hacq
      subst h1
      subst h2
      simp only [Bool.not_eq_true'] at hcond
      refine ⟨?_, ?_⟩
      · intro hcc
        rw [hcc] at hcond
        exact Bool.noConfusion hcond
      · intro hend
        simp only [hasEndedAt, hlen] at hend
        exact Bool.noConfusion hend
    case isFalse hcond =>
      rw [Option.some.injEq, Prod.mk.injEq] at hacq
      obtain ⟨h1, h2⟩ := hacq
      subst h1
      subst h2
      refine ⟨?_, ?_⟩
      · intro _
        refine ⟨rfl, rfl, ?_, ?_⟩
        · simp only [stateAt, hlen, Option.getD_none,
            List.getElem?_set_ne (Nat.ne_of_lt hcurlt), List.getElem?_concat_length]
        · intro _
          simp only [isOpenAt, List.getElem?_set_ne (Nat.ne_of_lt hcurlt),
            List.getElem?_concat_length, Tracker.isOpen, Tracker.hasStarted,
            Bool.false_and]
      · intro hend
        simp only [hasEndedAt, hlen] at hend
        exact Bool.noConfusion hend

theorem find?_congr {α : Type} {p q : α → Bool} : ∀ {l : List α},
    (∀ a, a ∈ l → p a = q a) → l.find? p = l.find? q
  | [], _ => rfl
  | a :: l, h => by
    rw [List.find?, List.find?, h a (List.mem_cons_self a l)]
    cases q a with
    | true => rfl
    | false => exact find?_congr fun b hb => h b (List.mem_cons_of_mem a hb)

theorem findChild_some_node {s : TrackerSys} {cur : Nat} {nm : String} {cid : Nat}
    (h : findChild s cur nm = some cid) : ∃ tcur, s.nodes[cur]? = some tcur := by
  unfold findChild at h
  split at h
  · exact Option.noConfusion h
  · next tcur heq => exact ⟨tcur, heq⟩

theorem acquireSection_ended_noop {s : TrackerSys} {nm : String} {cur cid : Nat} {tc : Tracker}
    (hcur : s.currentPart = some cur)
    (hfc : findChild s cur nm = some cid)
    (hfn : s.nodes[cid]? = some tc)
    (hk : tc.kind = .sec)
    (he : tc.hasEnded = true) :
    acquireSection s nm = some (s, cid) := by
  obtain ⟨tcur, htcur⟩ := findChild_some_node hfc
  simp [acquireSection, hcur, htcur, hfc, hfn, hk, he]

theorem idxPostClose_not_completed {s : TrackerSys} {i : Nat} {t : Tracker}
    (h : s.nodes[i]? = some t) (hst : t.runState ≠ .CompletedSuccessfully) :
    idxPostClose s i = some s := by
  cases htk : t.kind with
  | sec => simp only [idxPostClose, h, htk]
  | gen sz ix =>
    simp only [idxPostClose, h, htk]
    rw [if_neg]
    intro hcontra
    exact hst hcontra.1

theorem closeResolve_needsRun {s : TrackerSys} {p q : Nat} {tp : Tracker}
    (hgp : s.nodes[p]? = some tp)
    (hst : tp.runState = .NeedsAnotherRun)
    (hq : tp.parent = some q) :
    ∃ s'', closeResolve s p = some s'' ∧ stateAt s'' p = some .Executing := by
  have hplt : p < s.nodes.length := getElem_some_lt hgp
  have hset : (s.nodes.set p { tp with runState := .Executing })[p]? =
      some { tp with runState := .Executing } := List.getElem?_set_eq_of_lt _ hplt
  have hb : baseResolve s p =
      some ({ s with
              nodes := s.nodes.set p { tp with runState := .Executing }
              currentPart := some q
              runState := .CompletedCycle } : TrackerSys) := by
    simp only [baseResolve, hgp, hst, moveAndSignal, hset]
    simp only [hq]
  have hsa : stateAt ({ s with
      nodes := s.nodes.set p { tp with runState := .Executing }
      currentPart := some q
      runState := .CompletedCycle } : TrackerSys) p = some .Executing := by
    simp only [stateAt, hset]
  have hpost : idxPostClose ({ s with
      nodes := s.nodes.set p { tp with runState := .Executing }
      currentPart := some q
      runState := .CompletedCycle } : TrackerSys) p =
      some ({ s with
              nodes := s.nodes.set p { tp with runState := .Executing }
              currentPart := some q
              runState := .CompletedCycle } : TrackerSys) :=
    idxPostClose_not_completed hset (fun hcontra => TrackerRunState.noConfusion hcontra)
  refine ⟨{ s with
            nodes := s.nodes.set p { tp with runState := .Executing }
            currentPart := some q
            runState := .CompletedCycle }, ?_, hsa⟩
  simp only [closeResolve, hgp]
  split
  · exact hb
  · rw [hb]
    exact hpost

/-- Claim C4: `fail()` on a non-root tracker makes the tracker `Failed`
(hence ended), marks its parent `NeedsAnotherRun`, moves the context's
current tracker to the parent and completes the cycle; the next acquire of
the tracker's name under the parent returns it without reopening it, and
the parent's subsequent `close()` brings the parent back to `Executing`. -/
theorem c4_fail_isolates_and_flags_parent (s : TrackerSys) (i p q : Nat) (t tp : Tracker)
    (ht : s.nodes[i]? = some t)
    (hk : t.kind = .sec)
    (hp : t.parent = some p)
    (hip : i ≠ p)
    (htp : s.nodes[p]? = some tp)
    (hq : tp.parent = some q)
    (hfc : findChild s p t.name = some i) :
    ∃ s', failTracker s i = some s' ∧
      stateAt s' i = some .Failed ∧ hasEndedAt s' i = true ∧
      stateAt s' p = some .NeedsAnotherRun ∧
      s'.currentPart = some p ∧ s'.runState = .CompletedCycle ∧
      (acquireSection s' t.name = some (s', i) ∧ isOpenAt s' i = false) ∧
      (∃ s'', close s' p = some s'' ∧ stateAt s'' p = some .Executing) := by
  have hilt : i < s.nodes.length := getElem_some_lt ht
  have hplt : p < s.nodes.length := getElem_some_lt htp
  have hpi : p ≠ i := fun h => hip h.symm
  have hplt1 : p < (s.nodes.set i ⟨t.name, some p, t.kind, t.children, .Failed⟩).length := by
    rw [List.length_set]
    exact hplt
  have hsp1 : (s.nodes.set i ⟨t.name, some p, t.kind, t.children, .Failed⟩)[p]? = some tp := by
    rw [List.getElem?_set_ne hip, htp]
  have hfail : failTracker s i =
      some { s with
        nodes := (s.nodes.set i ⟨t.name, some p, t.kind, t.children, .Failed⟩).set p
          { tp with runState := .NeedsAnotherRun },
        currentPart := some p, runState := .CompletedCycle } := by
    simp only [failTracker, ht, hp, hsp1]
  have hgi : ((s.nodes.set i ⟨t.name, some p, t.kind, t.children, .Failed⟩).set p
      { tp with runState := .NeedsAnotherRun })[i]? =
      some ⟨t.name, some p, t.kind, t.children, .Failed⟩ := by
    rw [List.getElem?_set_ne hpi, List.getElem?_set_eq_of_lt _ hilt]
  have hgp : ((s.nodes.set i ⟨t.name, some p, t.kind, t.children, .Failed⟩).set p
      { tp with runState := .NeedsAnotherRun })[p]? =
      some { tp with runState := .NeedsAnotherRun } :=
    List.getElem?_set_eq_of_lt _ hplt1
  refine ⟨_, hfail, ?_, ?_, ?_, rfl, rfl, ⟨?_, ?_⟩, ?_⟩
  · simp only [stateAt, hgi]
  · simp only [hasEndedAt, hgi]
    rfl
  · simp only [stateAt, hgp]
  · -- re-acquire does not reopen
    have hfc2 : findChild
        { s with
          nodes := (s.nodes.set i ⟨t.name, some p, t.kind, t.children, .Failed⟩).set p
            { tp with runState := .NeedsAnotherRun },
          currentPart := some p, runState := .CompletedCycle } p t.name = some i := by
      unfold findChild at hfc ⊢
      rw [hgp]
      rw [htp] at hfc
      simp only at hfc ⊢
      rw [find?_congr ?_]
      · exact hfc
      · intro c _
        unfold childNamed
        by_cases hci : c = i
        · subst hci
          rw [hgi, ht]
        · by_cases hcp : c = p
          · subst hcp
            rw [hgp, htp]
          · rw [List.getElem?_set_ne (fun h => hcp h.symm),
                List.getElem?_set_ne (fun h => hci h.symm)]
    exact acquireSection_ended_noop rfl hfc2 hgi hk rfl
  · simp only [isOpenAt, hgi]
    rfl
  · -- parent close recovers to Executing
    have hclose := close_of_current
      (rfl : ({ s with
          nodes := (s.nodes.set i ⟨t.name, some p, t.kind, t.children, .Failed⟩).set p
            { tp with runState := .NeedsAnotherRun },
          currentPart := some p, runState := .CompletedCycle } : TrackerSys).currentPart = some p)
    simp only [hclose]
    exact closeResolve_needsRun hgp rfl hq

theorem getElem?_isSome_of_length {l l' : List Tracker} {j : Nat}
    (hlen : l'.length = l.length) (h : (l[j]?).isSome = true) : (l'[j]?).isSome = true := by
  have hj : j < l.length := by
    by_contra hn
    rw [List.getElem?_eq_none (Nat.le_of_not_lt hn)] at h
    exact Bool.noConfusion h
  rw [List.getElem?_eq_getElem (hlen ▸ hj)]
  rfl

theorem baseResolve_total {s : TrackerSys} {c p : Nat} {t : Tracker}
    (ht : s.nodes[c]? = some t)
    (hst : t.runState = .Executing ∨ t.runState = .ExecutingChildren ∨ t.runState = .NeedsAnotherRun)
    (hp : t.parent = some p)
    (hlast : ∀ lc, t.children.getLast? = some lc → (s.nodes[lc]?).isSome = true) :
    ∃ s1, baseResolve s c = some s1 ∧ s1.currentPart = some p ∧ s1.runState = .CompletedCycle ∧
      s1.nodes.length = s.nodes.length ∧ (∀ j, j ≠ c → s1.nodes[j]? = s.nodes[j]?) ∧
      (s1.nodes[c]?).isSome = true := by
  have hclt : c < s.nodes.length := getElem_some_lt ht
  have hset : ∀ u : Tracker, (s.nodes.set c u)[c]? = some u :=
    fun u => List.getElem?_set_eq_of_lt u hclt
  have hoff : ∀ (u : Tracker) (j : Nat), j ≠ c → (s.nodes.set c u)[j]? = s.nodes[j]? :=
    fun u j hj => List.getElem?_set_ne (fun h => hj h.symm)
  rcases hst with hst | hst | hst
  · have hbase : baseResolve s c =
        some ({ s with
                nodes := s.nodes.set c { t with runState := .CompletedSuccessfully }
                currentPart := some p
                runState := .CompletedCycle } : TrackerSys) := by
      simp only [baseResolve, ht, hst, moveAndSignal, hset, hp]
    refine ⟨_, hbase, rfl, rfl, List.length_set s.nodes c _, hoff _, ?_⟩
    rw [hset]
    rfl
  · cases hl : t.children.getLast? with
    | none =>
      have hbase : baseResolve s c =
          some ({ s with
                  nodes := s.nodes.set c { t with runState := .CompletedSuccessfully }
                  currentPart := some p
                  runState := .CompletedCycle } : TrackerSys) := by
        simp only [baseResolve, ht, hst, hl, moveAndSignal, hset, hp]
      refine ⟨_, hbase, rfl, rfl, List.length_set s.nodes c _, hoff _, ?_⟩
      rw [hset]
      rfl
    | some lc =>
      obtain ⟨tl, htl⟩ := Option.isSome_iff_exists.mp (hlast lc hl)
      cases he : tl.hasEnded with
      | true =>
        have hbase : baseResolve s c =
            some ({ s with
                    nodes := s.nodes.set c { t with runState := .CompletedSuccessfully }
                    currentPart := some p
                    runState := .CompletedCycle } : TrackerSys) := by
          simp only [baseResolve, ht, hst, hl, htl, he, if_true, moveAndSignal, hset, hp]
        refine ⟨_, hbase, rfl, rfl, List.length_set s.nodes c _, hoff _, ?_⟩
        rw [hset]
        rfl
      | false =>
        have hbase : baseResolve s c =
            some ({ s with currentPart := some p, runState := .CompletedCycle } : TrackerSys) := by
          simp [baseResolve, ht, hst, hl, htl, he, moveAndSignal, hp]
        refine ⟨_, hbase, rfl, rfl, rfl, fun j _ => rfl, ?_⟩
        rw [ht]
        rfl
  · have hbase : baseResolve s c =
        some ({ s with
                nodes := s.nodes.set c { t with runState := .Executing }
                currentPart := some p
                runState := .CompletedCycle } : TrackerSys) := by
      simp only [baseResolve, ht, hst, moveAndSignal, hset, hp]
    refine ⟨_, hbase, rfl, rfl, List.length_set s.nodes c _, hoff _, ?_⟩
    rw [hset]
    rfl

theorem idxPostClose_props {s : TrackerSys} {c : Nat}
    (h : (s.nodes[c]?).isSome = true) :
    ∃ s2, idxPostClose s c = some s2 ∧ s2.currentPart = s.currentPart ∧
      s2.runState = s.runState ∧ s2.nodes.length = s.nodes.length ∧
      (∀ j, j ≠ c → s2.nodes[j]? = s.nodes[j]?) := by
  obtain ⟨u, hu⟩ := Option.isSome_iff_exists.mp h
  cases hk : u.kind with
  | sec => exact ⟨s, by simp only [idxPostClose, hu, hk], rfl, rfl, rfl, fun j _ => rfl⟩
  | gen sz ix =>
    by_cases hcond : u.runState = .CompletedSuccessfully ∧ ix < sz - 1
    · have heq : idxPostClose s c =
          some ({ s with nodes := s.nodes.set c { u with runState := .Executing } } : TrackerSys) := by
        simp only [idxPostClose, hu, hk]
        rw [if_pos hcond]
      exact ⟨_, heq, rfl, rfl, List.length_set s.nodes c _,
        fun j hj => List.getElem?_set_ne (fun hx => hj hx.symm)⟩
    · have heq : idxPostClose s c = some s := by
        simp only [idxPostClose, hu, hk]
        rw [if_neg hcond]
      exact ⟨s, heq, rfl, rfl, rfl, fun j _ => rfl⟩

theorem closeResolve_total {s : TrackerSys} {c p : Nat} {t : Tracker}
    (ht : s.nodes[c]? = some t)
    (hst : t.runState = .Executing ∨ t.runState = .ExecutingChildren ∨ t.runState = .NeedsAnotherRun)
    (hp : t.parent = some p)
    (hlast : ∀ lc, t.children.getLast? = some lc → (s.nodes[lc]?).isSome = true) :
    ∃ s', closeResolve s c = some s' ∧ s'.currentPart = some p ∧ s'.runState = .CompletedCycle ∧
      s'.nodes.length = s.nodes.length ∧ (∀ j, j ≠ c → s'.nodes[j]? = s.nodes[j]?) := by
  obtain ⟨s1, hb, hc1, hr1, hl1, ho1, hs1⟩ := baseResolve_total ht hst hp hlast
  obtain ⟨s2, hpost, hc2, hr2, hl2, ho2⟩ := idxPostClose_props hs1
  cases hk : t.kind with
  | sec =>
    have hcr : closeResolve s c = some s1 := by
      simp only [closeResolve, ht, hk]
      exact hb
    exact ⟨s1, hcr, hc1, hr1, hl1, ho1⟩
  | gen sz ix =>
    have hcr : closeResolve s c = some s2 := by
      simp only [closeResolve, ht, hk]
      rw [hb]
      exact hpost
    refine ⟨s2, hcr, ?_, ?_, ?_, ?_⟩
    · rw [hc2, hc1]
    · rw [hr2, hr1]
    · rw [hl2, hl1]
    · intro j hj
      rw [ho2 j hj, ho1 j hj]

theorem aux_mono : ∀ f : Nat,
    (∀ s i r, drainAux f s i = some r → drainAux (f + 1) s i = some r) ∧
    (∀ s i r, closeAux f s i = some r → closeAux (f + 1) s i = some r) := by
  intro f
  induction f with
  | zero =>
    constructor
    · intro s i r h
      exact absurd h (by rw [drainAux]; exact Option.noConfusion)
    · intro s i r h
      exact absurd h (by rw [closeAux]; exact Option.noConfusion)
  | succ f ih =>
    constructor
    · intro s i r h
      rw [drainAux] at h
      rw [drainAux]
      cases hc : s.currentPart with
      | none => rw [hc] at h; exact Option.noConfusion h
      | some c =>
        rw [hc] at h
        simp only at h ⊢
        by_cases hci : c = i
        · rw [if_pos hci] at h ⊢
          exact h
        · rw [if_neg hci] at h ⊢
          cases hcl : closeAux f s c with
          | none => rw [hcl] at h; exact Option.noConfusion h
          | some s1 =>
            rw [hcl] at h
            rw [ih.2 s c s1 hcl]
            exact ih.1 s1 i r h
    · intro s i r h
      rw [closeAux] at h
      rw [closeAux]
      cases hd : drainAux f s i with
      | none => rw [hd] at h; exact Option.noConfusion h
      | some s1 =>
        rw [hd] at h
        rw [ih.1 s i s1 hd]
        exact h

theorem drainAux_mono_le {f g : Nat} (hfg : f ≤ g) {s : TrackerSys} {i : Nat} {r : TrackerSys}
    (h : drainAux f s i = some r) : drainAux g s i = some r := by
  induction hfg with
  | refl => exact h
  | step hfk ihk => exact (aux_mono _).1 _ _ _ ihk

theorem closeAux_mono_le {f g : Nat} (hfg : f ≤ g) {s : TrackerSys} {i : Nat} {r : TrackerSys}
    (h : closeAux f s i = some r) : closeAux g s i = some r := by
  induction hfg with
  | refl => exact h
  | step hfk ihk => exact (aux_mono _).2 _ _ _ ihk

theorem upchain_preserved {s s' : TrackerSys} {c0 i : Nat}
    (hlen : s'.nodes.length = s.nodes.length)
    (hoff : ∀ j, j ≠ c0 → s'.nodes[j]? = s.nodes[j]?) :
    ∀ {x : Nat} {l : List Nat}, UpChain s i x l → c0 ∉ l → UpChain s' i x l := by
  intro x l hch
  induction hch with
  | nil => intro _; exact UpChain.nil
  | cons hne hcl hp hnotin htail ih =>
    rename_i c p l2
    intro hc0
    have hcne : c ≠ c0 := fun h => hc0 (h ▸ List.mem_cons_self c l2)
    have hc0l : c0 ∉ l2 := fun h => hc0 (List.mem_cons_of_mem c h)
    refine UpChain.cons hne ?_ ?_ hnotin (ih hc0l)
    · obtain ⟨t, ht, hst, hpp, hlast⟩ := hcl
      refine ⟨t, ?_, hst, hpp, ?_⟩
      · rw [hoff c hcne]
        exact ht
      · intro lc hlc
        exact getElem?_isSome_of_length hlen (hlast lc hlc)
    · unfold parentOf at hp ⊢
      rw [hoff c hcne]
      exact hp

theorem close_current_step {s : TrackerSys} {c : Nat}
    (hcur : s.currentPart = some c) (hcl : Closable s c) :
    ∃ s' p, parentOf s c = some p ∧ (∀ f, closeAux (f + 2) s c = some s') ∧
      s'.currentPart = some p ∧ s'.runState = .CompletedCycle ∧
      s'.nodes.length = s.nodes.length ∧ (∀ j, j ≠ c → s'.nodes[j]? = s.nodes[j]?) := by
  obtain ⟨t, ht, hst, ⟨pp, hpp⟩, hlast⟩ := hcl
  obtain ⟨s', hres, hc', hr', hl', ho'⟩ := closeResolve_total ht hst hpp hlast
  refine ⟨s', pp, ?_, ?_, hc', hr', hl', ho'⟩
  · simp only [parentOf, ht]
    exact hpp
  · intro f
    show closeAux (f + 1 + 1) s c = some s'
    rw [closeAux, drain_triv _ hcur]
    exact hres

/-- Claim C9: whenever the context's current tracker is connected to the
tracker being closed by a parent chain of closable, pairwise-distinct
nodes — the invariant every reachable state satisfies — the descendant
drain loop of `close()` terminates: some finite fuel suffices for
`drainAux` to reach a state whose current tracker is the tracker being
closed, each iteration having moved the current pointer one step up. -/
theorem c9_drain_terminates (s : TrackerSys) (i c : Nat) (l : List Nat)
    (hcur : s.currentPart = some c)
    (hch : UpChain s i c l) :
    ∃ fuel s', drainAux fuel s i = some s' ∧ s'.currentPart = some i ∧
      s'.nodes.length = s.nodes.length := by
  induction l generalizing s c with
  | nil =>
    cases hch with
    | nil => exact ⟨1, s, drain_triv 0 hcur, hcur, rfl⟩
  | cons hd tl ih =>
    cases hch with
    | cons hne hcl hp hnotin htail =>
      rename_i p
      obtain ⟨s1, p2, hpo, hstep, hc1, hr1, hl1, ho1⟩ := close_current_step hcur hcl
      have hp2 : p2 = p := Option.some.inj (hpo ▸ hp)
      rw [hp2] at hc1
      have htail' : UpChain s1 i p tl := upchain_preserved hl1 ho1 htail hnotin
      obtain ⟨fuel0, s2, hdr, hc2, hl2⟩ := ih s1 p hc1 htail'
      refine ⟨fuel0 + 3, s2, ?_, hc2, ?_⟩
      · show drainAux (fuel0 + 2 + 1) s i = some s2
        rw [drainAux, hcur]
        simp only
        rw [if_neg hne, hstep fuel0]
        exact drainAux_mono_le (by omega) hdr
      · rw [hl2, hl1]

theorem hasEnded_cases {t : Tracker} (he : t.hasEnded = true) :
    t.runState = .CompletedSuccessfully ∨ t.runState = .Failed := by
  cases hrs : t.runState <;>
    first
      | exact Or.inl rfl
      | exact Or.inr rfl
      | (rw [Tracker.hasEnded, hrs] at he; exact Bool.noConfusion he)

/-- Claim C5, amended: `close()` signals `complete_cycle()` whenever it
performs a state transition at all — i.e. for every current tracker in
state `Executing`, `ExecutingChildren` or `NeedsAnotherRun` with a parent,
whatever its depth — and `fail()` likewise signals it for any tracker with
a parent.  Cycle completion is not reserved for the root's close. -/
theorem c5_close_always_signals (s : TrackerSys) (i p : Nat) (t : Tracker)
    (hcur : s.currentPart = some i)
    (ht : s.nodes[i]? = some t)
    (hst : t.runState = .Executing ∨ t.runState = .ExecutingChildren ∨ t.runState = .NeedsAnotherRun)
    (hp : t.parent = some p)
    (hlast : ∀ lc, t.children.getLast? = some lc → (s.nodes[lc]?).isSome = true) :
    (∃ s', close s i = some s' ∧ s'.runState = .CompletedCycle ∧ s'.currentPart = some p) ∧
    (∀ tp, s.nodes[p]? = some tp →
      ∃ s'', failTracker s i = some s'' ∧ s''.runState = .CompletedCycle ∧
        s''.currentPart = some p) := by
  constructor
  · obtain ⟨s', hres, hc', hr', _, _⟩ := closeResolve_total ht hst hp hlast
    refine ⟨s', ?_, hr', hc'⟩
    rw [close_of_current hcur]
    exact hres
  · intro tp htp
    have hpsome : ((s.nodes.set i ⟨t.name, some p, t.kind, t.children, .Failed⟩)[p]?).isSome = true := by
      refine getElem?_isSome_of_length (List.length_set s.nodes i _) ?_
      rw [htp]
      rfl
    obtain ⟨tp1, htp1⟩ := Option.isSome_iff_exists.mp hpsome
    have heq : failTracker s i =
        some ({ s with
                nodes := (s.nodes.set i ⟨t.name, some p, t.kind, t.children, .Failed⟩).set p
                  { tp1 with runState := .NeedsAnotherRun }
                currentPart := some p
                runState := .CompletedCycle } : TrackerSys) := by
      simp only [failTracker, ht, hp, htp1]
    exact ⟨_, heq, rfl, rfl⟩

/-- Claim C6, amended: closing a current tracker that has already ended is
a no-op for a `SectionTracker`, and for an `IndexTracker` unless it is
`CompletedSuccessfully` with `index < size − 1`, in which case the close
override re-arms it to `Executing` (still touching neither the current
pointer nor the cycle flag). -/
theorem c6_close_on_ended (s : TrackerSys) (i : Nat) (t : Tracker)
    (hcur : s.currentPart = some i)
    (ht : s.nodes[i]? = some t)
    (he : t.hasEnded = true) :
    (t.kind = .sec → close s i = some s) ∧
    (∀ sz ix, t.kind = .gen sz ix →
      (t.runState = .CompletedSuccessfully ∧ ix < sz - 1 →
        close s i = some { s with nodes := s.nodes.set i { t with runState := .Executing } }) ∧
      (¬ (t.runState = .CompletedSuccessfully ∧ ix < sz - 1) → close s i = some s)) := by
  have hcr := close_of_current hcur
  have hbase : baseResolve s i = some s := by
    rcases hasEnded_cases he with h | h <;> simp only [baseResolve, ht, h]
  constructor
  · intro hk
    rw [hcr]
    simp only [closeResolve, ht, hk]
    exact hbase
  · intro sz ix hk
    constructor
    · intro hcond
      rw [hcr]
      simp only [closeResolve, ht, hk]
      rw [hbase]
      simp only [idxPostClose, ht, hk]
      rw [if_pos hcond]
    · intro hcond
      rw [hcr]
      simp only [closeResolve, ht, hk]
      rw [hbase]
      simp only [idxPostClose, ht, hk]
      rw [if_neg hcond]

/-- Claim C7, amended: when `IndexTracker::acquire` finds an existing
child of the requested name, the `size` argument is irrelevant — the
result is identical for any two sizes; no validation against the recorded
size is performed and nothing aborts. -/
theorem c7_acquire_ignores_size (s : TrackerSys) (nm : String) (cur cid : Nat) (sz1 sz2 : Int)
    (hcur : s.currentPart = some cur)
    (hfc : findChild s cur nm = some cid) :
    acquireIndex s nm sz1 = acquireIndex s nm sz2 := by
  obtain ⟨tcur, htcur⟩ := findChild_some_node hfc
  simp only [acquireIndex, hcur, htcur, hfc]

/-- Claim C8, amended: `startRun` unconditionally installs a fresh root
`SectionTracker` named `{root}` (at the next arena index, `NotStarted`),
clears the current pointer and sets the run state to `Executing`, even
when a run is already in progress — the previous root is simply replaced,
its node left behind unchanged. -/
theorem c8_startRun_unconditional (s : TrackerSys) (r : Nat)
    (_hr : s.rootPart = some r) (hlt : r < s.nodes.length) :
    (startRun s).rootPart = some s.nodes.length ∧
    s.nodes.length ≠ r ∧
    (startRun s).nodes[s.nodes.length]? = some ⟨"{root}", none, .sec, [], .NotStarted⟩ ∧
    (startRun s).currentPart = none ∧
    (startRun s).runState = .Executing ∧
    (startRun s).nodes[r]? = s.nodes[r]? := by
  refine ⟨rfl, Nat.ne_of_gt hlt, ?_, rfl, rfl, ?_⟩
  · exact List.getElem?_concat_length _ _
  · exact List.getElem?_append_left hlt

/-- Claim C10: `close()` on an open tracker with no parent (the root), and
`fail()` on any tracker with no parent, reach `moveToParent()` whose
`assert( m_parent )` fires: in the embedding both return `none` instead of
completing normally. -/
theorem c10_root_close_fail_assert (s : TrackerSys) (i : Nat) (t : Tracker)
    (hcur : s.currentPart = some i)
    (ht : s.nodes[i]? = some t)
    (hroot : t.parent = none)
    (hopen : t.isOpen = true) :
    close s i = none ∧ failTracker s i = none := by
  have hst : t.runState = .Executing ∨ t.runState = .ExecutingChildren ∨
      t.runState = .NeedsAnotherRun := by
    cases hrs : t.runState <;>
      first
        | exact Or.inl rfl
        | exact Or.inr (Or.inl rfl)
        | exact Or.inr (Or.inr rfl)
        | (simp only [Tracker.isOpen, Tracker.hasStarted, Tracker.hasEnded, hrs,
             Bool.not_true, Bool.and_false, Bool.false_and, Bool.false_eq_true] at hopen)
  have hset : ∀ u : Tracker, (s.nodes.set i u)[i]? = some u :=
    fun u => List.getElem?_set_eq_of_lt u (getElem_some_lt ht)
  have hb : baseResolve s i = none := by
    rcases hst with h | h | h
    · simp only [baseResolve, ht, h, moveAndSignal, hset, hroot]
    · cases hl : t.children.getLast? with
      | none => simp only [baseResolve, ht, h, hl, moveAndSignal, hset, hroot]
      | some lc =>
        cases hlc : s.nodes[lc]? with
        | none => simp only [baseResolve, ht, h, hl, hlc]
        | some tl =>
          cases hhe : tl.hasEnded with
          | true => simp only [baseResolve, ht, h, hl, hlc, hhe, if_true, moveAndSignal,
              hset, hroot]
          | false =>
            simp [baseResolve, ht, h, hl, hlc, hhe, moveAndSignal, hroot]
    · simp only [baseResolve, ht, h, moveAndSignal, hset, hroot]
  constructor
  · rw [close_of_current hcur]
    simp only [closeResolve, ht]
    split
    · exact hb
    · rw [hb]
  · simp only [failTracker, ht, hroot]

set_option maxHeartbeats 1600000 in
/-- Claim C5 counterexample: a full driver prefix in which the section
`S1`, two levels below the root, closes: the run state becomes
`CompletedCycle` although the root (arena index 0) is neither closed nor
ended — so cycle completion is not signalled only when the root closes. -/
theorem c5_counterexample :
    c5state = some wSysClosed ∧ wSysClosed.runState = .CompletedCycle ∧
    wSysClosed.rootPart = some 0 ∧ stateAt wSysClosed 0 = some .ExecutingChildren ∧
    hasEndedAt wSysClosed 0 = false ∧ stateAt wSysClosed 2 = some .CompletedSuccessfully := by
  decide

/-- Claim C6 counterexample: an `IndexTracker` whose state is already
`CompletedSuccessfully` (ended) with `index = 0 < size − 1 = 1`: calling
`close()` on it changes its state back to `Executing`, so close on an
ended tracker is not always a no-op. -/
theorem c6_counterexample :
    hasEndedAt c6sys 1 = true ∧ c6sys.currentPart = some 1 ∧
    stateAt c6sys 1 = some .CompletedSuccessfully ∧
    close c6sys 1 = some c6out ∧ stateAt c6out 1 = some .Executing := by
  decide

/-- Claim C7 counterexample: re-acquiring the existing `IndexTracker` `G`
(recorded size 2) with size 5 does not abort: it returns the tracker,
advanced and reopened, with the recorded size still 2. -/
theorem c7_counterexample :
    acquireIndex c7sys "G" 5 = some (c7out, 1) ∧ sizeAt c7sys 1 = some 2 ∧
    sizeAt c7out 1 = some 2 ∧ ¬ ((5:Int) = 2) := by
  decide

/-- Claim C8 counterexample: with a run already in progress (a root
exists and `endRun` has not been called), a second `startRun` does not
fail: it returns normally, installing a second fresh root at index 1. -/
theorem c8_counterexample :
    (startRun initSys).rootPart = some 0 ∧
    startRun (startRun initSys) =
      ⟨[⟨"{root}", none, .sec, [], .NotStarted⟩, ⟨"{root}", none, .sec, [], .NotStarted⟩],
        some 1, none, .Executing⟩ := by
  decide

/-- Witness for C1 at a concrete tree: closing the open section `S1` of
`wSys` completes it, moves current to its parent and completes the
cycle. -/
theorem c1_close_resolution_witness :
    wSys.currentPart = some 2 ∧ basePartClose wSys 2 = some wSysClosed := by
  refine ⟨rfl, ?_⟩
  have h := (c1_close_resolution wSys 2 1 ⟨"S1", some 1, .sec, [], .Executing⟩ rfl rfl rfl).1 rfl
  rw [h]
  decide

/-- Witness for C2 at `n = 2`: the index is 0 after cycle 1, 1 after
cycle 2 (with the tracker then permanently `CompletedSuccessfully`), and
cycle 3 changes nothing about the generator. -/
theorem c2_generator_fairness_witness :
    genIter 2 1 = some (gRun 2 0 .Executing .CompletedCycle) ∧
    genIter 2 2 = some (gRun 2 1 .CompletedSuccessfully .CompletedCycle) ∧
    genIter 2 3 = some (gRun 2 1 .CompletedSuccessfully .Executing) := by
  refine ⟨?_, ?_, ?_⟩
  · have h := (c2_generator_fairness 2 1 (by norm_num) (by norm_num)).1 (by norm_num)
    norm_num at h
    exact h
  · have h := (c2_generator_fairness 2 2 (by norm_num) (by norm_num)).1 (by norm_num)
    norm_num at h
    exact h
  · have h := (c2_generator_fairness 2 3 (by norm_num) (by norm_num)).2 (by norm_num)
    norm_num at h
    exact h

/-- Witness for C3: acquiring the unseen section `S2` after the cycle has
completed creates it `NotStarted`, does not open it and leaves the current
pointer alone. -/
theorem c3_acquire_after_completed_cycle_witness :
    acquireSection wSysClosed "S2" = some (c3wOut, 3) ∧
    completedCycle wSysClosed = true ∧
    c3wOut.currentPart = wSysClosed.currentPart ∧
    stateAt c3wOut 3 = some .NotStarted ∧ isOpenAt c3wOut 3 = false := by
  have hacq : acquireSection wSysClosed "S2" = some (c3wOut, 3) := by decide
  have h := c3_acquire_after_completed_cycle wSysClosed "S2" c3wOut 3 hacq
  exact ⟨hacq, rfl, (h.1 rfl).1, (h.1 rfl).2.2.1, (h.1 rfl).2.2.2 rfl⟩

/-- Witness for C4: failing `S1` in `wSys` marks it `Failed`, flags
`Testcase` as `NeedsAnotherRun`, and the follow-up acquire and parent close
behave as claimed. -/
theorem c4_fail_isolates_and_flags_parent_witness :
    ∃ s', failTracker wSys 2 = some s' ∧
      stateAt s' 2 = some .Failed ∧ hasEndedAt s' 2 = true ∧
      stateAt s' 1 = some .NeedsAnotherRun ∧
      s'.currentPart = some 1 ∧ s'.runState = .CompletedCycle ∧
      (acquireSection s' "S1" = some (s', 2) ∧ isOpenAt s' 2 = false) ∧
      (∃ s'', close s' 1 = some s'' ∧ stateAt s'' 1 = some .Executing) :=
  c4_fail_isolates_and_flags_parent wSys 2 1 0
    ⟨"S1", some 1, .sec, [], .Executing⟩ ⟨"Testcase", some 0, .sec, [2], .ExecutingChildren⟩
    rfl rfl rfl (by decide) rfl rfl (by decide)

/-- Witness for the amended C5 at a tracker two levels down: both its
close and its fail complete the cycle. -/
theorem c5_close_always_signals_witness :
    (∃ s', close wSys 2 = some s' ∧ s'.runState = .CompletedCycle ∧ s'.currentPart = some 1) ∧
    (∃ s'', failTracker wSys 2 = some s'' ∧ s''.runState = .CompletedCycle ∧
      s''.currentPart = some 1) := by
  have h := c5_close_always_signals wSys 2 1 ⟨"S1", some 1, .sec, [], .Executing⟩
    rfl rfl (Or.inl rfl) rfl (fun lc hlc => Option.noConfusion hlc)
  exact ⟨h.1, h.2 ⟨"Testcase", some 0, .sec, [2], .ExecutingChildren⟩ rfl⟩

/-- Witness for the amended C6 at the exceptional input: the ended
`IndexTracker` with `index < size − 1` is re-armed by `close()`. -/
theorem c6_close_on_ended_witness :
    close c6sys 1 = some c6out := by
  have h := ((c6_close_on_ended c6sys 1 ⟨"G", some 0, .gen 2 0, [], .CompletedSuccessfully⟩
    rfl rfl rfl).2 2 0 rfl).1 ⟨rfl, by norm_num⟩
  rw [h]
  decide

/-- Witness for the amended C7: acquiring the existing `G` with sizes 5
and 7 produces identical results. -/
theorem c7_acquire_ignores_size_witness :
    acquireIndex c7sys "G" 5 = acquireIndex c7sys "G" 7 :=
  c7_acquire_ignores_size c7sys "G" 0 1 5 7 rfl (by decide)

/-- Witness for the amended C8: calling `startRun` while a run is in
progress still creates the fresh root at index 1 and leaves the old root
node in place. -/
theorem c8_startRun_unconditional_witness :
    (startRun (startRun initSys)).rootPart = some 1 ∧ (1:Nat) ≠ 0 ∧
    (startRun (startRun initSys)).nodes[1]? = some ⟨"{root}", none, .sec, [], .NotStarted⟩ ∧
    (startRun (startRun initSys)).currentPart = none ∧
    (startRun (startRun initSys)).runState = .Executing ∧
    (startRun (startRun initSys)).nodes[0]? = (startRun initSys).nodes[0]? :=
  c8_startRun_unconditional (startRun initSys) 0 rfl (by decide)

/-- Witness for C9 on a three-deep open chain: draining towards the root
from the current leaf terminates with the root current. -/
theorem c9_drain_terminates_witness :
    c9sys.currentPart = some 2 ∧
    (∃ fuel s', drainAux fuel c9sys 0 = some s' ∧ s'.currentPart = some 0 ∧
      s'.nodes.length = c9sys.nodes.length) := by
  refine ⟨rfl, ?_⟩
  refine c9_drain_terminates c9sys 0 2 [2, 1] rfl ?_
  refine UpChain.cons (by decide) ?_ rfl (by decide) ?_
  · exact ⟨⟨"B", some 1, .sec, [], .Executing⟩, rfl, Or.inl rfl, ⟨1, rfl⟩,
      fun lc hlc => Option.noConfusion hlc⟩
  · refine UpChain.cons (by decide) ?_ rfl (by decide) UpChain.nil
    exact ⟨⟨"A", some 0, .sec, [2], .ExecutingChildren⟩, rfl, Or.inr (Or.inl rfl), ⟨0, rfl⟩,
      fun lc hlc => (Option.some.inj hlc) ▸ rfl⟩

/-- Witness for C10: closing or failing the lone open root both trip the
parent assertion. -/
theorem c10_root_close_fail_assert_witness :
    close c10sys 0 = none ∧ failTracker c10sys 0 = none :=
  c10_root_close_fail_assert c10sys 0 ⟨"{root}", none, .sec, [], .ExecutingChildren⟩
    rfl rfl rfl rfl

end PartTracker
